import Mathlib

/-!
Shallow embedding of `secureprint_box.py` (SecurePrint Box): the job-session
and secure-wipe core.  Filenames and marker contents are `String`s, byte
payloads are `List Nat`, paths are lists of components, and the filesystem
under the job root is a list of directory entries.  `os.urandom` is modelled
as an oracle parameter.
-/

namespace SecurePrint

/-- Path-separator characters; `safe_filename` replaces both, and the path
model splits on both (the reference code runs `pathlib` on Windows, where
`/` and `\` are both separators). -/
def pathSeps : List Char := ['/', '\\']

/-- The characters `safe_filename` keeps: `c.isalnum() or c in " ._-()"`. -/
def keepChar (c : Char) : Bool :=
  c.isAlphanum || c ∈ [' ', '.', '_', '-', '(', ')']

/-- Python `str.strip()` on a character list (whitespace from both ends). -/
def pyStrip (l : List Char) : List Char :=
  ((l.dropWhile Char.isWhitespace).reverse.dropWhile Char.isWhitespace).reverse

/-- `safe_filename` from the source: replace `\` and `/` with `_`, strip,
keep only alphanumerics and `" ._-()"`, strip again. -/
def safe_filename (name : String) : String :=
  let repl := name.data.map (fun c => if c ∈ pathSeps then '_' else c)
  ⟨pyStrip ((pyStrip repl).filter keepChar)⟩

/-- Index of the last `'.'` in a character list (Python `str.rfind('.')`),
`none` when absent. -/
def rfindDot (l : List Char) : Option Nat :=
  if l.contains '.' then some (l.length - 1 - l.reverse.indexOf '.') else none

/-- `pathlib.PurePath(name).suffix` for a single-component name (every call
site applies it to a sanitized, separator-free name): the part from the last
dot, provided the dot is neither the first nor the last character. -/
def pySuffix (s : String) : String :=
  match rfindDot s.data with
  | none => ""
  | some i => if 0 < i ∧ i < s.data.length - 1 then ⟨s.data.drop i⟩ else ""

/-- `pathlib.PurePath(name).stem` for a single-component name. -/
def pyStem (s : String) : String :=
  match rfindDot s.data with
  | none => s
  | some i => if 0 < i ∧ i < s.data.length - 1 then ⟨s.data.take i⟩ else s

/-- Python `str.lower()` (ASCII case folding suffices for the extensions
involved). -/
def pyLower (s : String) : String := ⟨s.data.map Char.toLower⟩

/-- `ALLOWED_EXT` from the source configuration block. -/
def ALLOWED_EXT : List String :=
  [".pdf", ".png", ".jpg", ".jpeg", ".doc", ".docx", ".txt",
   ".ppt", ".pptx", ".xls", ".xlsx"]

/-- `is_allowed` from the source: the lower-cased suffix is in the allow-set. -/
def is_allowed (filename : String) : Bool :=
  ALLOWED_EXT.contains (pyLower (pySuffix filename))

/-- `LEFTOVER_TTL_SECONDS = 30 * 60`. -/
def LEFTOVER_TTL_SECONDS : Int := 30 * 60

/-- The 1 MiB chunk size used by the wipe engine (`1024 * 1024`). -/
def MB : Nat := 1024 * 1024

/-! ### Path model

A filesystem path is its list of components.  `pathJoin` models
`pathlib`'s `/` operator on a string argument: the string is split on the
separator characters, empty and `"."` components are normalized away, and an
argument that begins with a separator is absolute and replaces the base.
`resolveComps` interprets `".."` the way the OS does when the path is used. -/

/-- Split a character list into components at separator characters. -/
def splitSeps : List Char → List Char → List (List Char)
  | [], acc => [acc.reverse]
  | c :: rest, acc =>
    if c ∈ pathSeps then acc.reverse :: splitSeps rest []
    else splitSeps rest (c :: acc)

/-- Components of a string path fragment, with empty and `"."` components
dropped (as `pathlib` normalizes them). -/
def strComps (s : String) : List String :=
  ((splitSeps s.data []).map fun l => (⟨l⟩ : String)).filter
    fun c => c ≠ "" && c ≠ "."

/-- `base / s` for `pathlib` paths: an argument starting with a separator is
absolute and replaces `base`; otherwise its components are appended. -/
def pathJoin (base : List String) (s : String) : List String :=
  match s.data with
  | [] => base
  | c :: _ => if c ∈ pathSeps then strComps s else base ++ strComps s

/-- OS-level resolution of `".."` components (pop the previous component). -/
def resolveComps (l : List String) : List String :=
  l.foldl (fun acc c => if c = ".." then acc.dropLast else acc ++ [c]) []

/-! ### Filesystem and session state

The job root (`JOBS_DIR`) holds a list of entries: job-store directories and
possibly stray non-directory entries (which the sweeper skips).  A job-store
directory is its name (the `job_id`; its path is `JOBS_DIR/<name>`), the
optional content of its `.jobmeta` marker, its modification time, and its
regular files.  A file records its byte content and whether it is locked
against being opened for overwrite (the storage-error case the wipe engine
must tolerate). -/

structure FileEntry where
  fname : String
  content : List Nat
  locked : Bool
deriving Repr, DecidableEq

structure JobFolder where
  jname : String
  marker : Option String
  mtime : Int
  files : List FileEntry
deriving Repr, DecidableEq

inductive Entry where
  | dir (j : JobFolder)
  | nondir (fname : String)
deriving Repr, DecidableEq

/-- The process state the core mutates: the upload gate's binding
`CURRENT_JOB_PATH["path"]` and the UI's `self.current_job_path` (both
recorded as the bound store's name, i.e. its path below `JOBS_DIR`),
plus the contents of `JOBS_DIR`. -/
structure SysState where
  gateBinding : Option String
  uiJobPath : Option String
  entries : List Entry
deriving Repr, DecidableEq

/-- Value of a run of decimal digit characters. -/
def digitsVal (l : List Char) : Nat :=
  l.foldl (fun a c => a * 10 + (c.toNat - 48)) 0

/-- Python `int(text)` on the characters of `text`: surrounding whitespace
is ignored, an optional sign precedes a nonempty digit run; anything else
raises, modelled as `none`. -/
def parseIntChars (l : List Char) : Option Int :=
  match pyStrip l with
  | [] => none
  | '-' :: ds =>
    if ds ≠ [] ∧ ds.all Char.isDigit then some (-(digitsVal ds : Int))
    else none
  | '+' :: ds =>
    if ds ≠ [] ∧ ds.all Char.isDigit then some (digitsVal ds : Int)
    else none
  | ds =>
    if ds.all Char.isDigit then some (digitsVal ds : Int) else none

/-- `read_marker_ts`: the marker's content parsed as an integer; `none` when
the marker is absent or unparsable (Python `int(text.strip())` raising). -/
def read_marker_ts (j : JobFolder) : Option Int :=
  j.marker.bind fun s => parseIntChars s.data

/-- The age the sweeper computes for a folder: `now` minus the marker
timestamp, falling back to the directory's mtime when the marker is missing
or unparsable. -/
def folderAge (now : Int) (j : JobFolder) : Int :=
  now - (match read_marker_ts j with
         | some ts => ts
         | none => j.mtime)

/-! ### Secure Wipe Engine — `basic_secure_delete_file`

The per-file routine is modelled as the sequence of I/O events it issues.
`os.urandom` is an oracle `urandom : Nat → List Nat` (argument: requested
length); the claims only use that its output has the requested length.
The description of the file the routine sees (`stat`, lockedness) is a
`PyFile`. -/

structure PyFile where
  present : Bool
  isFile : Bool
  size : Nat
  locked : Bool
deriving Repr, DecidableEq

inductive FEvent where
  | seek0
  | writeRand (bytes : List Nat)
  | writeZeros (n : Nat)
  | flush
  | fsync
  | unlink
deriving Repr, DecidableEq

/-- One pass of the overwrite loop body: `f.seek(0)`,
`f.write(os.urandom(min(size, 1MB)))`, then, if the file is larger than
1 MiB, `f.write(b"\x00" * remaining)`, then `f.flush()` and
`os.fsync(f.fileno())`. -/
def passEvents (urandom : Nat → List Nat) (size : Nat) : List FEvent :=
  [.seek0, .writeRand (urandom (min size MB))] ++
  (if size - min size MB > 0 then [.writeZeros (size - min size MB)] else []) ++
  [.flush, .fsync]

/-- `basic_secure_delete_file` as its event trace: nothing for a missing or
non-regular path; a bare `unlink` for an empty file; for a locked file the
`open` raises and the handler still unlinks; otherwise `max 1 passes`
overwrite passes followed by `unlink`. -/
def basic_secure_delete_file (urandom : Nat → List Nat) (f : PyFile)
    (passes : Nat) : List FEvent :=
  if ¬ f.present ∨ ¬ f.isFile then []
  else if f.size = 0 then [.unlink]
  else if f.locked then [.unlink]
  else (List.replicate (max 1 passes) (passEvents urandom f.size)).flatten
       ++ [.unlink]

/-- Writing `bs` into `content` at offset `pos` (extending if needed). -/
def overwriteAt (content : List Nat) (pos : Nat) (bs : List Nat) : List Nat :=
  content.take pos ++ bs ++ content.drop (pos + bs.length)

/-- File-content semantics of one event: track the write position and the
content; `unlink` clears the content to `none`. -/
def applyFEvent : Option (List Nat) × Nat → FEvent → Option (List Nat) × Nat
  | (some c, _), .seek0 => (some c, 0)
  | (some c, pos), .writeRand bs => (some (overwriteAt c pos bs), pos + bs.length)
  | (some c, pos), .writeZeros n =>
      (some (overwriteAt c pos (List.replicate n 0)), pos + n)
  | (_, pos), .unlink => (none, pos)
  | st, _ => st

/-- Run a trace against an initial file content. -/
def runFEvents (c₀ : List Nat) (evs : List FEvent) : Option (List Nat) :=
  (evs.foldl applyFEvent (some c₀, 0)).1

/-- The content the overwrite loop leaves on disk just before `unlink`:
`min size MB` random bytes followed by `size - MB` zero bytes. -/
def overwrittenContent (urandom : Nat → List Nat) (size : Nat) : List Nat :=
  urandom (min size MB) ++ List.replicate (size - min size MB) 0

/-! ### Secure Wipe Engine — `wipe_job_folder`

`wipe_job_folder` runs `basic_secure_delete_file` on every regular file
under the folder and then `shutil.rmtree(..., ignore_errors=True)`; the
folder and its contents are gone afterwards, locked files included (they are
unlinked by the per-file handler or by `rmtree`).  Its Python return value
is `None`, modelled as `Unit`. -/

/-- Does this entry name the given directory? -/
def isDirNamed (name : String) : Entry → Bool
  | .dir j => j.jname = name
  | .nondir _ => false

/-- `wipe_job_folder` on the job root's entry list: the folder (if present)
is destroyed; the function returns `None`. -/
def wipe_job_folder (entries : List Entry) (name : String) :
    List Entry × Unit :=
  (entries.filter (fun e => !(isDirNamed name e)), ())

/-! ### Leftover Sweeper — `cleanup_leftover_jobs` -/

/-- Should the sweeper wipe this entry?  Non-directories are skipped; a
directory is wiped when its age (marker, else mtime) is at least the TTL. -/
def sweepExpired (now : Int) : Entry → Bool
  | .dir j => LEFTOVER_TTL_SECONDS ≤ folderAge now j
  | .nondir _ => false

/-- `cleanup_leftover_jobs`: iterate the job root, skip non-directories,
wipe each directory whose age is at least the TTL, and count the wiped
stores.  The gate binding is never consulted. -/
def cleanup_leftover_jobs (now : Int) : List Entry → List Entry × Nat
  | [] => ([], 0)
  | e :: rest =>
    let (es, c) := cleanup_leftover_jobs now rest
    if sweepExpired now e then (es, c + 1) else (e :: es, c)

/-! ### Upload Gate — the `/upload` handler -/

/-- Decimal digits of `n`, most significant first: the characters of Python
`str(n)` for the nonnegative `int(time.time())`. -/
def natDigits (n : Nat) : List Char :=
  if n < 10 then [Char.ofNat (48 + n)]
  else natDigits (n / 10) ++ [Char.ofNat (48 + n % 10)]
decreasing_by exact Nat.div_lt_self (by omega) (by omega)

/-- Python `str(n)` for a nonnegative integer (the epoch timestamp). -/
def pyStrOfNat (n : Nat) : String := ⟨natDigits n⟩

inductive UploadResponse where
  | noActiveSession
  | noFileSelected
  | fileTypeNotAllowed
  | uploaded (storedName : String)
  | storageError
deriving Repr, DecidableEq

/-- Is there a file named `n` in the folder (`dest.exists()`)? -/
def hasFile (j : JobFolder) (n : String) : Bool :=
  j.files.any (fun f => f.fname = n)

/-- `f.save(dest)`: store the payload under `n` in the folder (replacing an
existing entry of that name, as `save` truncates). -/
def saveFile (j : JobFolder) (n : String) (payload : List Nat) : JobFolder :=
  if hasFile j n then
    { j with files := j.files.map fun f =>
        if f.fname = n then { fname := n, content := payload, locked := false }
        else f }
  else { j with files := j.files ++ [⟨n, payload, false⟩] }

/-- Update the (unique) directory named `name` in the entry list. -/
def updateDir (entries : List Entry) (name : String)
    (g : JobFolder → JobFolder) : List Entry :=
  entries.map fun e =>
    match e with
    | .dir j => if j.jname = name then .dir (g j) else .dir j
    | e => e

/-- The `/upload` handler.  `fname` is the client filename (the missing-field
and empty-filename rejections both respond "No file selected." and are
modelled by `fname = ""`); `now` is `int(time.time())` at collision-renaming
time.  Returns the new state and the rendered response.  When the binding
points at a directory that no longer exists, `f.save` raises
(`storageError`) and nothing is written. -/
def upload (st : SysState) (fname : String) (payload : List Nat)
    (now : Nat) : SysState × UploadResponse :=
  match st.gateBinding with
  | none => (st, .noActiveSession)
  | some jp =>
    if fname = "" then (st, .noFileSelected)
    else
      let name := safe_filename fname
      if ¬ is_allowed name then (st, .fileTypeNotAllowed)
      else
        match (st.entries.filter (isDirNamed jp)) with
        | .dir j :: _ =>
          let dest := if hasFile j name then
              pyStem name ++ "_" ++ pyStrOfNat now ++ pySuffix name
            else name
          ({ st with entries := updateDir st.entries jp (saveFile · dest payload) },
           .uploaded dest)
        | _ => (st, .storageError)

/-! ### Session Manager — the UI's `start_job`, `end_job`,
`emergency_clean`, traced as the sequence of state-changing actions so that
orderings ("clear the binding before wiping") are provable. -/

inductive SysEvent where
  | setGateBinding (b : Option String)
  | wipeFolder (name : String)
deriving Repr, DecidableEq

/-- `now_job_id`: `"JOB_" + datetime.now().strftime("%Y%m%d_%H%M%S")`; the
formatted wall-clock string is a parameter. -/
def now_job_id (stamp : String) : String := "JOB_" ++ stamp

/-- `start_job`: build the id and path, `mkdir(exist_ok=True)`,
`write_marker` (the marker content is `str(int(time.time()))`), publish the
binding.  The previous session's store is never touched. -/
def start_job (st : SysState) (stamp : String) (nowEpoch : Int) : SysState :=
  let id := now_job_id stamp
  let entries₁ :=
    if (st.entries.filter (isDirNamed id)).isEmpty then
      st.entries ++ [.dir ⟨id, none, nowEpoch, []⟩]
    else st.entries
  let entries₂ := updateDir entries₁ id
    (fun j => { j with marker := some (toString nowEpoch) })
  { gateBinding := some id, uiJobPath := some id, entries := entries₂ }

/-- `end_job`: no-op without a UI-bound session or on a declined
confirmation dialog; otherwise clear `CURRENT_JOB_PATH["path"]` first, then
`wipe_job_folder` the bound store, then clear the UI binding.  The event
trace records the order of the two state-changing actions. -/
def end_job (st : SysState) (confirm : Bool) :
    SysState × List SysEvent :=
  match st.uiJobPath with
  | none => (st, [])
  | some jp =>
    if ¬ confirm then (st, [])
    else
      ({ gateBinding := none, uiJobPath := none,
         entries := (wipe_job_folder st.entries jp).1 },
       [.setGateBinding none, .wipeFolder jp])

/-- `emergency_clean`: on confirmation, clear the binding then wipe every
directory under the job root. -/
def emergency_clean (st : SysState) (confirm : Bool) :
    SysState × List SysEvent :=
  if ¬ confirm then (st, [])
  else
    let dirNames := st.entries.filterMap fun e =>
      match e with
      | .dir j => some j.jname
      | .nondir _ => none
    ({ gateBinding := none, uiJobPath := none,
       entries := dirNames.foldl (fun es n => (wipe_job_folder es n).1)
                    st.entries },
     .setGateBinding none :: dirNames.map .wipeFolder)

/-! ### Concrete states used by witnesses -/

def exStore : JobFolder := ⟨"J", some "100", 100, []⟩

def exState : SysState := ⟨some "J", some "J", [.dir exStore]⟩

def exClosed : SysState := ⟨none, none, [.dir exStore]⟩

def exUrandom : Nat → List Nat := fun n => List.replicate n 7

/-- The files of the (first) directory named `name` in an entry list. -/
def dirFiles (entries : List Entry) (name : String) : List FileEntry :=
  match entries.filter (isDirNamed name) with
  | .dir j :: _ => j.files
  | _ => []

/-- An expired store (marker 100) that is also the bound open session. -/
def exOldBound : JobFolder := ⟨"J", some "100", 100, [⟨"a.pdf", [1], false⟩]⟩

/-- A store with an unparsable marker whose mtime (150) makes it expired. -/
def exUnparse : JobFolder := ⟨"K", some "junk", 150, []⟩

/-- A store younger than the TTL at time 2000. -/
def exYoung : JobFolder := ⟨"L", some "1999", 1999, []⟩

def exSweep : List Entry := [.dir exOldBound, .dir exUnparse, .nondir "x", .dir exYoung]

/-- An open session bound to the expired store `exOldBound`. -/
def exBound : SysState := ⟨some "J", some "J", exSweep⟩

/-- A store holding two files, one locked against overwrite. -/
def exWipeA : List Entry :=
  [.dir ⟨"J", some "100", 100, [⟨"a.pdf", [1], true⟩, ⟨"b.pdf", [2], false⟩]⟩]

/-- A store holding no files. -/
def exWipeB : List Entry := [.dir ⟨"J", some "100", 100, []⟩]

/-- A string usable as a single relative path component: nonempty, free of
separators, and not one of the special components `"."` / `".."`. -/
def goodComponent (m : String) : Prop :=
  m.data ≠ [] ∧ (∀ c ∈ m.data, c ∉ pathSeps) ∧ m ≠ "." ∧ m ≠ ".."

/-! ### Helper lemmas -/

theorem mem_pyStrip {c : Char} {l : List Char} (h : c ∈ pyStrip l) : c ∈ l := by
  unfold pyStrip at h
  rw [List.mem_reverse] at h
  have h₁ := (List.dropWhile_sublist _).mem h
  rw [List.mem_reverse] at h₁
  exact (List.dropWhile_sublist _).mem h₁

theorem safe_filename_no_seps (s : String) :
    ∀ c ∈ (safe_filename s).data, c ∉ pathSeps := by
  intro c hc hsep
  have h₁ : c ∈ ((pyStrip (s.data.map
      (fun c => if c ∈ pathSeps then '_' else c))).filter keepChar) :=
    mem_pyStrip hc
  have h₂ : keepChar c = true := List.of_mem_filter h₁
  have hc2 : c = '/' ∨ c = '\\' := by simpa [pathSeps] using hsep
  rcases hc2 with rfl | rfl <;> exact absurd h₂ (by decide)

theorem is_allowed_len {n : String} (h : is_allowed n = true) :
    3 ≤ n.data.length := by
  unfold is_allowed pySuffix at h
  split at h
  · simp [pyLower, ALLOWED_EXT] at h
  · split at h
    · next hcond => omega
    · simp [pyLower, ALLOWED_EXT] at h

theorem goodComponent_of_allowed {n : String}
    (hsep : ∀ c ∈ n.data, c ∉ pathSeps) (h : is_allowed n = true) :
    goodComponent n := by
  have hlen := is_allowed_len h
  refine ⟨?_, hsep, ?_, ?_⟩
  · intro hnil; rw [hnil] at hlen; simp at hlen
  · intro he; rw [he] at hlen; simp at hlen
  · intro he; rw [he] at hlen; simp at hlen

theorem mem_pyStem {c : Char} {s : String} (h : c ∈ (pyStem s).data) :
    c ∈ s.data := by
  unfold pyStem at h
  split at h
  · exact h
  · split at h
    · exact (List.take_sublist _ _).mem h
    · exact h

theorem mem_pySuffix {c : Char} {s : String} (h : c ∈ (pySuffix s).data) :
    c ∈ s.data := by
  unfold pySuffix at h
  split at h
  · simp at h
  · split at h
    · exact (List.drop_sublist _ _).mem h
    · simp at h

theorem natDigits_isDigit {n : Nat} : ∀ c ∈ natDigits n, c.isDigit = true := by
  induction n using Nat.strong_induction_on with
  | _ n ih =>
    intro c hc
    rw [natDigits] at hc
    split at hc
    · next hlt =>
      simp only [List.mem_singleton] at hc
      subst hc
      interval_cases n <;> decide
    · next hge =>
      rcases List.mem_append.mp hc with h | h
      · exact ih (n / 10) (Nat.div_lt_self (by omega) (by omega)) c h
      · simp only [List.mem_singleton] at h
        subst h
        have hm : n % 10 < 10 := Nat.mod_lt _ (by omega)
        interval_cases hh : (n % 10) <;> decide

theorem isDigit_not_sep {c : Char} (h : c.isDigit = true) : c ∉ pathSeps := by
  intro hsep
  have hc2 : c = '/' ∨ c = '\\' := by simpa [pathSeps] using hsep
  rcases hc2 with rfl | rfl <;> exact absurd h (by decide)

theorem collision_goodComponent {n : String} (t : Nat)
    (hsep : ∀ c ∈ n.data, c ∉ pathSeps) (_ : is_allowed n = true) :
    goodComponent (pyStem n ++ "_" ++ pyStrOfNat t ++ pySuffix n) := by
  have hdata : (pyStem n ++ "_" ++ pyStrOfNat t ++ pySuffix n).data =
      (pyStem n).data ++ '_' :: (natDigits t ++ (pySuffix n).data) := by
    simp [String.data_append, pyStrOfNat]
  have hu : '_' ∈ (pyStem n ++ "_" ++ pyStrOfNat t ++ pySuffix n).data := by
    rw [hdata]
    exact List.mem_append_right _ (List.mem_cons_self _ _)
  refine ⟨List.ne_nil_of_mem hu, ?_, ?_, ?_⟩
  · intro c hc
    rw [hdata] at hc
    rcases List.mem_append.mp hc with h | h
    · exact hsep c (mem_pyStem h)
    · rcases List.mem_cons.mp h with h | h
      · subst h; decide
      · rcases List.mem_append.mp h with h | h
        · exact isDigit_not_sep (natDigits_isDigit _ h)
        · exact hsep c (mem_pySuffix h)
  · intro he
    rw [he] at hu
    simp at hu
  · intro he
    rw [he] at hu
    simp at hu

theorem splitSeps_no_sep (l acc : List Char) (h : ∀ c ∈ l, c ∉ pathSeps) :
    splitSeps l acc = [acc.reverse ++ l] := by
  induction l generalizing acc with
  | nil => simp [splitSeps]
  | cons c rest ih =>
    have hc : c ∉ pathSeps := h c (List.mem_cons_self _ _)
    rw [splitSeps, if_neg hc, ih _ (fun x hx => h x (List.mem_cons_of_mem _ hx))]
    simp

theorem strComps_single (m : String) (h : goodComponent m) :
    strComps m = [m] := by
  obtain ⟨hnil, hsep, hdot, -⟩ := h
  have hne : m ≠ "" := by
    intro he; apply hnil; rw [he]
  unfold strComps
  rw [splitSeps_no_sep m.data [] hsep]
  simp only [List.reverse_nil, List.nil_append, List.map_cons, List.map_nil]
  have hmk : (⟨m.data⟩ : String) = m := rfl
  rw [hmk]
  simp [List.filter, hne, hdot]

theorem pathJoin_single (base : List String) (m : String)
    (h : goodComponent m) : pathJoin base m = base ++ [m] := by
  unfold pathJoin
  split
  · next heq => exact absurd heq h.1
  · next c rest heq =>
    have hc : c ∈ m.data := by rw [heq]; exact List.mem_cons_self _ _
    rw [if_neg (h.2.1 c hc), strComps_single m h]

theorem resolveComps_append (l : List String) (m : String) (h : m ≠ "..") :
    resolveComps (l ++ [m]) = resolveComps l ++ [m] := by
  unfold resolveComps
  rw [List.foldl_append]
  simp [h]

/-- Characterization of a successful upload: the stored name is the
sanitized name, or its collision-renaming, and either way it is a proper
single path component. -/
theorem upload_uploaded_goodComponent {st : SysState} {f : String}
    {p : List Nat} {t : Nat} {st' : SysState} {m : String}
    (h : upload st f p t = (st', .uploaded m)) : goodComponent m := by
  unfold upload at h
  split at h
  · simp at h
  · split at h
    · simp at h
    · split at h
      · next j rest heq =>
        cases hall : is_allowed (safe_filename f) with
        | false => simp [hall] at h
        | true =>
          simp only [hall, not_true_eq_false, if_false, Prod.mk.injEq,
            UploadResponse.uploaded.injEq] at h
          obtain ⟨-, hm⟩ := h
          by_cases hf : hasFile j (safe_filename f) = true
          · rw [if_pos hf] at hm
            rw [← hm]
            exact collision_goodComponent t (safe_filename_no_seps f) hall
          · rw [if_neg hf] at hm
            rw [← hm]
            exact goodComponent_of_allowed (safe_filename_no_seps f) hall
      · cases hall : is_allowed (safe_filename f) <;> simp [hall] at h

/-- With no bound session, the gate rejects and changes nothing. -/
theorem upload_gate_closed (st : SysState) (f : String) (p : List Nat)
    (t : Nat) (hb : st.gateBinding = none) :
    upload st f p t = (st, .noActiveSession) := by
  unfold upload
  rw [hb]

/-- Full characterization of a sweeper pass: expired directories are
removed, everything else survives in order, and the count is the number of
expired directories. -/
theorem cleanup_eq (now : Int) (entries : List Entry) :
    cleanup_leftover_jobs now entries =
      (entries.filter (fun e => !(sweepExpired now e)),
       (entries.filter (sweepExpired now)).length) := by
  induction entries with
  | nil => rfl
  | cons e rest ih =>
    rw [cleanup_leftover_jobs, ih]
    by_cases he : sweepExpired now e = true <;>
      simp [List.filter_cons, he]

theorem overwrittenContent_length (urandom : Nat → List Nat)
    (hlen : ∀ n, (urandom n).length = n) (size : Nat) :
    (overwrittenContent urandom size).length = size := by
  have hmle : min size MB ≤ size := Nat.min_le_left _ _
  unfold overwrittenContent
  rw [List.length_append, hlen, List.length_replicate]
  omega

/-- One pass of the overwrite loop turns any content of the file's length
into the random-then-zeros pattern and leaves the write position at the
file's end. -/
theorem pass_foldl (urandom : Nat → List Nat)
    (hlen : ∀ n, (urandom n).length = n) (size : Nat) (c : List Nat)
    (pos : Nat) (hc : c.length = size) :
    (passEvents urandom size).foldl applyFEvent (some c, pos) =
      (some (overwrittenContent urandom size), size) := by
  have hmle : min size MB ≤ size := Nat.min_le_left _ _
  have hbs : (urandom (min size MB)).length = min size MB := hlen _
  have e1 : overwriteAt c 0 (urandom (min size MB)) =
      urandom (min size MB) ++ c.drop (urandom (min size MB)).length := by
    unfold overwriteAt
    simp
  unfold passEvents
  by_cases hrem : size - min size MB > 0
  · rw [if_pos hrem]
    simp only [List.cons_append, List.nil_append, List.foldl_cons,
      List.foldl_nil, applyFEvent]
    rw [e1]
    have e2 : overwriteAt
        (urandom (min size MB) ++ c.drop (urandom (min size MB)).length)
        (0 + (urandom (min size MB)).length)
        (List.replicate (size - min size MB) 0) =
        overwrittenContent urandom size := by
      unfold overwriteAt overwrittenContent
      rw [Nat.zero_add, List.take_left]
      have hdrop : (urandom (min size MB) ++
          c.drop (urandom (min size MB)).length).drop
            ((urandom (min size MB)).length +
              (List.replicate (size - min size MB) (0 : Nat)).length) = [] := by
        apply List.drop_eq_nil_of_le
        rw [List.length_append, List.length_drop, List.length_replicate]
        omega
      rw [hdrop, List.append_nil]
    rw [e2]
    have e3 : 0 + (urandom (min size MB)).length + (size - min size MB) =
        size := by
      rw [hbs]
      omega
    rw [e3]
  · rw [if_neg hrem]
    have hms : min size MB = size := by omega
    simp only [List.cons_append, List.nil_append, List.foldl_cons,
      List.foldl_nil, applyFEvent]
    rw [e1]
    have e4 : c.drop (urandom (min size MB)).length = [] := by
      apply List.drop_eq_nil_of_le
      omega
    have e5 : urandom (min size MB) ++ c.drop (urandom (min size MB)).length =
        overwrittenContent urandom size := by
      rw [e4, List.append_nil]
      unfold overwrittenContent
      have : size - min size MB = 0 := by omega
      rw [this]
      simp
    rw [e5]
    have e6 : 0 + (urandom (min size MB)).length = size := by
      rw [hbs]; omega
    rw [e6]

/-- Any positive number of overwrite passes leaves the random-then-zeros
pattern on a file of the given length. -/
theorem loop_foldl (urandom : Nat → List Nat)
    (hlen : ∀ n, (urandom n).length = n) (size : Nat) :
    ∀ (k : Nat), 0 < k → ∀ (c : List Nat) (pos : Nat), c.length = size →
      ((List.replicate k (passEvents urandom size)).flatten).foldl
          applyFEvent (some c, pos) =
        (some (overwrittenContent urandom size), size) := by
  intro k
  induction k with
  | zero => omega
  | succ n ih =>
    intro _ c pos hc
    rw [List.replicate_succ, List.flatten_cons, List.foldl_append,
      pass_foldl urandom hlen size c pos hc]
    rcases Nat.eq_zero_or_pos n with h0 | hpos
    · subst h0
      simp
    · exact ih hpos _ _ (overwrittenContent_length urandom hlen size)

/-! ### Claim theorems -/

/-- C1: for every candidate filename (including ones with path separators
such as `../../evil.pdf`), the sanitized name contains no path separators;
and whenever the gate stores a file, the stored name is a proper single path
component, so the destination path is the job store's directory extended by
exactly one component and resolves to a location directly inside it, never
outside. -/
theorem upload_stays_inside_store :
    (∀ (f : String), ∀ c ∈ (safe_filename f).data, c ∉ pathSeps) ∧
    ∀ (st : SysState) (f : String) (payload : List Nat) (now : Nat)
      (st' : SysState) (m : String) (base : List String),
      upload st f payload now = (st', .uploaded m) →
      pathJoin base m = base ++ [m] ∧
      resolveComps (base ++ [m]) = resolveComps base ++ [m] := by
  refine ⟨safe_filename_no_seps, ?_⟩
  intro st f payload now st' m base h
  have hg := upload_uploaded_goodComponent h
  exact ⟨pathJoin_single base m hg, resolveComps_append base m hg.2.2.2⟩

/-- Witness for C1 at the spec's own example `../../evil.pdf`, against the
concrete open session `exState` and the store's real path components. -/
theorem upload_stays_inside_store_witness :
    pathJoin ["C:", "SecurePrintBox", "Jobs", "J"] ".._.._evil.pdf" =
      ["C:", "SecurePrintBox", "Jobs", "J", ".._.._evil.pdf"] ∧
    resolveComps (["C:", "SecurePrintBox", "Jobs", "J"] ++ [".._.._evil.pdf"]) =
      resolveComps ["C:", "SecurePrintBox", "Jobs", "J"] ++ [".._.._evil.pdf"] :=
  upload_stays_inside_store.2 exState "../../evil.pdf" [9] 5
    ⟨some "J", some "J", [.dir ⟨"J", some "100", 100, [⟨".._.._evil.pdf", [9], false⟩]⟩]⟩
    ".._.._evil.pdf" ["C:", "SecurePrintBox", "Jobs", "J"] (by decide)

/-- C3: an upload arriving while no session is bound (the gate's binding is
`None`) is rejected with the no-active-session response and the filesystem
and state are left untouched — no file is written anywhere. -/
theorem upload_closed_writes_nothing :
    ∀ (st : SysState) (f : String) (payload : List Nat) (now : Nat),
      st.gateBinding = none →
      upload st f payload now = (st, .noActiveSession) := by
  intro st f payload now hb
  exact upload_gate_closed st f payload now hb

/-- Witness for C3: a concrete closed state rejects a concrete upload and is
returned unchanged. -/
theorem upload_closed_writes_nothing_witness :
    upload exClosed "report.pdf" [1] 7 = (exClosed, .noActiveSession) :=
  upload_closed_writes_nothing exClosed "report.pdf" [1] 7 rfl

/-- C2: on a confirmed `end_job` of an open session, the action trace is
exactly "clear the gate binding, then invoke the wipe engine on the bound
store": every binding-clear event strictly precedes every wipe invocation;
and any upload handled against a state whose binding is already cleared is
rejected with no write, so no upload admitted after `end_job` begins can be
written into a store whose wipe has started. -/
theorem end_job_closes_gate_before_wipe :
    ∀ (st : SysState) (jp : String), st.uiJobPath = some jp →
      (end_job st true).2 = [.setGateBinding none, .wipeFolder jp] ∧
      (∀ (i k : Nat) (b : Option String) (nm : String),
        (end_job st true).2.get? i = some (.setGateBinding b) →
        (end_job st true).2.get? k = some (.wipeFolder nm) → i < k) ∧
      (∀ (st' : SysState) (f : String) (p : List Nat) (t : Nat),
        st'.gateBinding = none →
        upload st' f p t = (st', .noActiveSession)) := by
  intro st jp huip
  have htr : (end_job st true).2 = [.setGateBinding none, .wipeFolder jp] := by
    simp [end_job, huip]
  refine ⟨htr, ?_, fun st' f p t hb => upload_gate_closed st' f p t hb⟩
  intro i k b nm hi hk
  rw [htr] at hi hk
  rcases i with _ | _ | i <;> rcases k with _ | _ | k <;> simp_all

/-- Witness for C2 at the concrete open session `exState`. -/
theorem end_job_closes_gate_before_wipe_witness :
    (end_job exState true).2 = [.setGateBinding none, .wipeFolder "J"] ∧
    (∀ (i k : Nat) (b : Option String) (nm : String),
      (end_job exState true).2.get? i = some (.setGateBinding b) →
      (end_job exState true).2.get? k = some (.wipeFolder nm) → i < k) ∧
    (∀ (st' : SysState) (f : String) (p : List Nat) (t : Nat),
      st'.gateBinding = none →
      upload st' f p t = (st', .noActiveSession)) :=
  end_job_closes_gate_before_wipe exState "J" rfl

/-- C4: one sweeper pass removes exactly the job directories whose age
(marker timestamp, else directory mtime when the marker is missing or
unparsable) is at least the TTL and returns their count; an expired store is
wiped even when it is the currently bound open session, and stores younger
than the TTL survive untouched. -/
theorem sweeper_wipes_expired :
    ∀ (now : Int) (entries : List Entry),
      cleanup_leftover_jobs now entries =
        (entries.filter (fun e => !(sweepExpired now e)),
         (entries.filter (sweepExpired now)).length) ∧
      (∀ (st : SysState) (j : JobFolder), st.entries = entries →
        st.gateBinding = some j.jname →
        .dir j ∈ entries → LEFTOVER_TTL_SECONDS ≤ folderAge now j →
        .dir j ∉ (cleanup_leftover_jobs now entries).1) ∧
      (∀ j : JobFolder, .dir j ∈ entries →
        folderAge now j < LEFTOVER_TTL_SECONDS →
        .dir j ∈ (cleanup_leftover_jobs now entries).1) := by
  intro now entries
  refine ⟨cleanup_eq now entries, ?_, ?_⟩
  · intro st j _ _ _ hage hmem
    rw [cleanup_eq] at hmem
    have := List.of_mem_filter hmem
    simp [sweepExpired, hage] at this
  · intro j hmem hage
    rw [cleanup_eq]
    apply List.mem_filter_of_mem hmem
    simp [sweepExpired]
    omega

/-- Witness for C4 at time 2000 on a root holding an expired bound store, an
expired store with an unparsable marker (mtime fallback), a stray non-dir
entry, and a young store. -/
theorem sweeper_wipes_expired_witness :
    cleanup_leftover_jobs 2000 exSweep =
      ([.nondir "x", .dir exYoung], 2) ∧
    .dir exOldBound ∉ (cleanup_leftover_jobs 2000 exSweep).1 ∧
    .dir exUnparse ∉ (cleanup_leftover_jobs 2000 exSweep).1 ∧
    .dir exYoung ∈ (cleanup_leftover_jobs 2000 exSweep).1 := by
  refine ⟨?_, ?_, ?_, ?_⟩
  · rw [(sweeper_wipes_expired 2000 exSweep).1]; decide
  · exact (sweeper_wipes_expired 2000 exSweep).2.1 exBound exOldBound rfl rfl
      (by decide) (by decide)
  · exact (sweeper_wipes_expired 2000 exSweep).2.1
      ⟨some "K", none, exSweep⟩ exUnparse rfl rfl (by decide) (by decide)
  · exact (sweeper_wipes_expired 2000 exSweep).2.2 exYoung (by decide)
      (by decide)

/-- C7: `start_job` while a session is already open silently replaces the
binding with the freshly created store; the prior session's store is not
wiped — it stays on disk with all its files — and only a later sweeper pass,
once its age reaches the TTL, removes it. -/
theorem start_job_replaces_without_wipe :
    ∀ (st : SysState) (stamp : String) (nowEpoch : Int) (oldJ : JobFolder),
      st.gateBinding = some oldJ.jname →
      .dir oldJ ∈ st.entries →
      (start_job st stamp nowEpoch).gateBinding = some (now_job_id stamp) ∧
      (start_job st stamp nowEpoch).uiJobPath = some (now_job_id stamp) ∧
      (now_job_id stamp ≠ oldJ.jname →
        .dir oldJ ∈ (start_job st stamp nowEpoch).entries) ∧
      (∀ later : Int, LEFTOVER_TTL_SECONDS ≤ folderAge later oldJ →
        .dir oldJ ∉
          (cleanup_leftover_jobs later (start_job st stamp nowEpoch).entries).1) := by
  intro st stamp nowEpoch oldJ _ hmem
  refine ⟨rfl, rfl, ?_, ?_⟩
  · intro hne
    unfold start_job updateDir
    have hmem₁ : Entry.dir oldJ ∈
        (if (st.entries.filter (isDirNamed (now_job_id stamp))).isEmpty then
          st.entries ++ [.dir ⟨now_job_id stamp, none, nowEpoch, []⟩]
        else st.entries) := by
      split
      · exact List.mem_append_left _ hmem
      · exact hmem
    have := List.mem_map_of_mem
      (fun e => match e with
        | Entry.dir j => if j.jname = now_job_id stamp then
            Entry.dir { j with marker := some (toString nowEpoch) }
          else Entry.dir j
        | e => e) hmem₁
    simpa [Ne.symm hne] using this
  · intro later hage hmem'
    rw [cleanup_eq] at hmem'
    have := List.of_mem_filter hmem'
    simp [sweepExpired, hage] at this

/-- Witness for C7: starting a new job over the open, bound store `exBound`
rebinds to the new id, leaves the old store's directory and files in place,
and a sweep at time 2000 (age 1900 ≥ 1800) then wipes it. -/
theorem start_job_replaces_without_wipe_witness :
    (start_job exBound "20250101_120000" 500).gateBinding =
      some (now_job_id "20250101_120000") ∧
    (start_job exBound "20250101_120000" 500).uiJobPath =
      some (now_job_id "20250101_120000") ∧
    (now_job_id "20250101_120000" ≠ exOldBound.jname →
      .dir exOldBound ∈ (start_job exBound "20250101_120000" 500).entries) ∧
    (∀ later : Int, LEFTOVER_TTL_SECONDS ≤ folderAge later exOldBound →
      .dir exOldBound ∉
        (cleanup_leftover_jobs later
          (start_job exBound "20250101_120000" 500).entries).1) :=
  start_job_replaces_without_wipe exBound "20250101_120000" 500 exOldBound
    rfl (by decide)

/-- C10: the wipe engine's per-file routine performs no overwrite pass at
all on trivial inputs: a missing or non-regular path is left untouched
(empty trace, no error), and a zero-size regular file is simply unlinked. -/
theorem secure_delete_skips_trivial_files :
    ∀ (urandom : Nat → List Nat) (f : PyFile) (passes : Nat),
      ((¬ f.present = true ∨ ¬ f.isFile = true) →
        basic_secure_delete_file urandom f passes = []) ∧
      (f.present = true → f.isFile = true → f.size = 0 →
        basic_secure_delete_file urandom f passes = [.unlink]) ∧
      ((¬ f.present = true ∨ ¬ f.isFile = true ∨ f.size = 0) →
        (∀ bs, FEvent.writeRand bs ∉ basic_secure_delete_file urandom f passes) ∧
        (∀ n, FEvent.writeZeros n ∉ basic_secure_delete_file urandom f passes)) := by
  intro urandom f passes
  refine ⟨?_, ?_, ?_⟩
  · intro h
    unfold basic_secure_delete_file
    rw [if_pos h]
  · intro hp hf hs
    unfold basic_secure_delete_file
    rw [if_neg (by simp [hp, hf]), if_pos hs]
  · intro h
    by_cases hmiss : ¬ f.present = true ∨ ¬ f.isFile = true
    · have ht : basic_secure_delete_file urandom f passes = [] := by
        unfold basic_secure_delete_file
        rw [if_pos hmiss]
      rw [ht]
      simp
    · have hs : f.size = 0 := by tauto
      have ht : basic_secure_delete_file urandom f passes = [.unlink] := by
        unfold basic_secure_delete_file
        rw [if_neg hmiss, if_pos hs]
      rw [ht]
      simp

/-- Witness for C10: a missing path and a concrete empty file. -/
theorem secure_delete_skips_trivial_files_witness :
    basic_secure_delete_file exUrandom ⟨false, false, 5, false⟩ 1 = [] ∧
    basic_secure_delete_file exUrandom ⟨true, true, 0, false⟩ 1 = [.unlink] ∧
    (∀ bs, FEvent.writeRand bs ∉
      basic_secure_delete_file exUrandom ⟨true, true, 0, false⟩ 1) :=
  ⟨(secure_delete_skips_trivial_files exUrandom ⟨false, false, 5, false⟩ 1).1
     (Or.inl (by decide)),
   (secure_delete_skips_trivial_files exUrandom ⟨true, true, 0, false⟩ 1).2.1
     rfl rfl rfl,
   ((secure_delete_skips_trivial_files exUrandom ⟨true, true, 0, false⟩ 1).2.2
     (Or.inr (Or.inr rfl))).1⟩

/-- C9 counterexample: the nonempty filename `###` sanitizes to the empty
string, yet the gate's rejection is exactly the "File type not allowed"
response — the very same response the disallowed extension `evil.exe`
receives — and not a distinct invalid-filename error; no file is written. -/
theorem empty_sanitization_not_distinct_cex :
    safe_filename "###" = "" ∧ "###" ≠ "" ∧
    upload exState "###" [1] 5 = (exState, .fileTypeNotAllowed) ∧
    (upload exState "evil.exe" [2] 5).2 = .fileTypeNotAllowed ∧
    (upload exState "###" [1] 5).2 = (upload exState "evil.exe" [2] 5).2 := by
  decide

/-- C9 amended: a nonempty candidate filename whose sanitization yields the
empty string is rejected by the gate with no file written, but with the same
"File type not allowed" response used for `ExtensionNotAllowed` (the empty
name has no allowed extension); the code has no distinct InvalidFilename
error. -/
theorem empty_sanitization_rejected_as_extension :
    ∀ (st : SysState) (jp : String) (f : String) (p : List Nat) (t : Nat),
      st.gateBinding = some jp → f ≠ "" → safe_filename f = "" →
      upload st f p t = (st, .fileTypeNotAllowed) := by
  intro st jp f p t hb hf hsan
  have hna : is_allowed "" = false := by decide
  simp [upload, hb, hf, hsan, hna]

/-- Witness for the amended C9 at the concrete input `###`. -/
theorem empty_sanitization_rejected_as_extension_witness :
    upload exState "###" [3] 9 = (exState, .fileTypeNotAllowed) :=
  empty_sanitization_rejected_as_extension exState "J" "###" [3] 9 rfl
    (by decide) (by decide)

/-- C6 counterexample: wiping a store holding two files — one locked against
overwrite — and wiping an empty store return the identical value (the
Python function returns `None`), so the wipe's return carries no
filesWiped count, no filesFailedOverwrite count and no directoryRemoved
flag, and the per-file failure is aggregated nowhere. -/
theorem wipe_returns_no_report_cex :
    (wipe_job_folder exWipeA "J").2 = (wipe_job_folder exWipeB "J").2 ∧
    dirFiles exWipeA "J" ≠ dirFiles exWipeB "J" ∧
    (dirFiles exWipeA "J").length = 2 ∧
    (∃ f ∈ dirFiles exWipeA "J", f.locked = true) ∧
    (dirFiles exWipeB "J").length = 0 := by
  refine ⟨rfl, by decide, by decide, ⟨⟨"a.pdf", [1], true⟩, by decide⟩, by decide⟩

/-- C6 amended: a wipe returns no report at all: `wipe_job_folder` returns
`None` for every input while removing the store's directory wholesale, and
per-file storage errors are swallowed silently with no aggregation — a
regular file that cannot be opened for overwrite is still simply unlinked,
with no exception and no record. -/
theorem wipe_returns_none :
    ∀ (entries : List Entry) (name : String),
      (wipe_job_folder entries name).2 = () ∧
      (wipe_job_folder entries name).1 =
        entries.filter (fun e => !(isDirNamed name e)) ∧
      (∀ (urandom : Nat → List Nat) (f : PyFile) (passes : Nat),
        f.present = true → f.isFile = true → 0 < f.size → f.locked = true →
        basic_secure_delete_file urandom f passes = [.unlink]) := by
  intro entries name
  refine ⟨rfl, rfl, ?_⟩
  intro urandom f passes hp hf hs hl
  unfold basic_secure_delete_file
  rw [if_neg (by simp [hp, hf]), if_neg (by omega), if_pos hl]

/-- Witness for the amended C6 on the concrete store with a locked file. -/
theorem wipe_returns_none_witness :
    (wipe_job_folder exWipeA "J").2 = () ∧
    (wipe_job_folder exWipeA "J").1 =
      exWipeA.filter (fun e => !(isDirNamed "J" e)) ∧
    basic_secure_delete_file exUrandom ⟨true, true, 4, true⟩ 1 = [.unlink] :=
  ⟨(wipe_returns_none exWipeA "J").1, (wipe_returns_none exWipeA "J").2.1,
   (wipe_returns_none exWipeA "J").2.2 exUrandom ⟨true, true, 4, true⟩ 1
     rfl rfl (by decide) rfl⟩

/-- C5: for a present, regular, non-empty, openable file, the per-file wipe
issues its overwrite passes and then the unlink; the content left on disk at
unlink time is entirely fresh random bytes when the size is at most 1 MiB,
and random bytes for the first 1 MiB followed by zeros for the remainder
when larger; a flush and an fsync (forcing the write to stable storage)
occur strictly before the unlink. -/
theorem secure_delete_overwrite_policy :
    ∀ (urandom : Nat → List Nat) (f : PyFile) (passes : Nat)
      (c₀ : List Nat),
      (∀ n, (urandom n).length = n) →
      f.present = true → f.isFile = true → 0 < f.size → f.locked = false →
      c₀.length = f.size →
      ∃ pre, basic_secure_delete_file urandom f passes = pre ++ [.unlink] ∧
        runFEvents c₀ pre = some (overwrittenContent urandom f.size) ∧
        FEvent.flush ∈ pre ∧ FEvent.fsync ∈ pre ∧
        (f.size ≤ MB → overwrittenContent urandom f.size = urandom f.size) ∧
        (MB < f.size →
          (overwrittenContent urandom f.size).take MB = urandom MB ∧
          (overwrittenContent urandom f.size).drop MB =
            List.replicate (f.size - MB) 0) := by
  intro urandom f passes c₀ hlen hp hf hs hl hc
  refine ⟨(List.replicate (max 1 passes) (passEvents urandom f.size)).flatten,
    ?_, ?_, ?_, ?_, ?_, ?_⟩
  · unfold basic_secure_delete_file
    rw [if_neg (by simp [hp, hf]), if_neg (by omega), if_neg (by simp [hl])]
  · unfold runFEvents
    rw [loop_foldl urandom hlen f.size (max 1 passes) (by omega) c₀ 0 hc]
  · rw [List.mem_flatten]
    exact ⟨passEvents urandom f.size,
      List.mem_replicate.mpr ⟨by omega, rfl⟩, by simp [passEvents]⟩
  · rw [List.mem_flatten]
    exact ⟨passEvents urandom f.size,
      List.mem_replicate.mpr ⟨by omega, rfl⟩, by simp [passEvents]⟩
  · intro hle
    unfold overwrittenContent
    rw [Nat.min_eq_left hle]
    have : f.size - f.size = 0 := by omega
    rw [this]
    simp
  · intro hgt
    have hm : min f.size MB = MB := Nat.min_eq_right (by omega)
    unfold overwrittenContent
    rw [hm]
    constructor
    · have h := (hlen MB).symm
      nth_rewrite 1 [h]
      rw [List.take_left]
    · have h := (hlen MB).symm
      nth_rewrite 1 [h]
      rw [List.drop_left]

/-- Witness for C5: a 3-byte file wiped with the replicate-7 oracle: the
trace is one full pass then unlink, and the content before unlink is the
3 random bytes. -/
theorem secure_delete_overwrite_policy_witness :
    ∃ pre, basic_secure_delete_file exUrandom ⟨true, true, 3, false⟩ 1 =
        pre ++ [.unlink] ∧
      runFEvents [9, 9, 9] pre =
        some (overwrittenContent exUrandom 3) ∧
      FEvent.flush ∈ pre ∧ FEvent.fsync ∈ pre ∧
      (3 ≤ MB → overwrittenContent exUrandom 3 = exUrandom 3) ∧
      (MB < 3 →
        (overwrittenContent exUrandom 3).take MB = exUrandom MB ∧
        (overwrittenContent exUrandom 3).drop MB =
          List.replicate (3 - MB) 0) :=
  secure_delete_overwrite_policy exUrandom ⟨true, true, 3, false⟩ 1 [9, 9, 9]
    (fun n => List.length_replicate n 7) rfl rfl (by decide) rfl rfl

theorem natDigits_length_pos (n : Nat) : 0 < (natDigits n).length := by
  rw [natDigits]
  split <;> simp

/-- A timestamp-suffixed collision name is never the original name. -/
theorem report_collision_ne (t : Nat) :
    ("report_" ++ pyStrOfNat t ++ ".pdf") ≠ "report.pdf" := by
  intro h
  have hd := congrArg String.data h
  rw [String.data_append, String.data_append] at hd
  have hl := congrArg List.length hd
  rw [List.length_append, List.length_append] at hl
  have h1 : ("report_".data).length = 7 := rfl
  have h2 : ((".pdf").data).length = 4 := rfl
  have h3 : ("report.pdf".data).length = 10 := rfl
  have h4 : (pyStrOfNat t).data = natDigits t := rfl
  rw [h1, h2, h3, h4] at hl
  have := natDigits_length_pos t
  omega

/-- C8: in any open session whose store is empty, uploading `report.pdf` and
then a second file also named `report.pdf` leaves two distinct files on
disk: the first under its own name with the first payload, the second under
the stem suffixed with the current epoch timestamp, holding the second
payload — neither upload overwrites the other. -/
theorem upload_collision_two_files :
    ∀ (jname : String) (marker : Option String) (mtime : Int)
      (p1 p2 : List Nat) (t1 t2 : Nat),
      upload ⟨some jname, some jname, [.dir ⟨jname, marker, mtime, []⟩]⟩
          "report.pdf" p1 t1 =
        (⟨some jname, some jname,
          [.dir ⟨jname, marker, mtime, [⟨"report.pdf", p1, false⟩]⟩]⟩,
         .uploaded "report.pdf") ∧
      upload ⟨some jname, some jname,
          [.dir ⟨jname, marker, mtime, [⟨"report.pdf", p1, false⟩]⟩]⟩
          "report.pdf" p2 t2 =
        (⟨some jname, some jname,
          [.dir ⟨jname, marker, mtime,
            [⟨"report.pdf", p1, false⟩,
             ⟨"report_" ++ pyStrOfNat t2 ++ ".pdf", p2, false⟩]⟩]⟩,
         .uploaded ("report_" ++ pyStrOfNat t2 ++ ".pdf")) ∧
      ("report_" ++ pyStrOfNat t2 ++ ".pdf") ≠ "report.pdf" := by
  intro jname marker mtime p1 p2 t1 t2
  have hsf : safe_filename "report.pdf" = "report.pdf" := by decide
  have hia : is_allowed "report.pdf" = true := by decide
  have hstem : pyStem "report.pdf" = "report" := by decide
  have hsuf : pySuffix "report.pdf" = ".pdf" := by decide
  have hne : ("report.pdf" : String) ≠ "report_" ++ pyStrOfNat t2 ++ ".pdf" :=
    fun h => report_collision_ne t2 h.symm
  have hra : ("report" ++ "_" : String) = "report_" := rfl
  refine ⟨?_, ?_, report_collision_ne t2⟩
  · simp [upload, hsf, hia, isDirNamed, hasFile, updateDir, saveFile]
  · simp [upload, hsf, hia, hstem, hsuf, isDirNamed, hasFile, updateDir,
      saveFile, hra, hne]

end SecurePrint
